import Mathlib

/-!
Shallow embedding of the number-guessing game's core logic (round state
machine, scoring engine, leaderboard/statistics aggregator, achievement
evaluator, level progression), translated from the React sources
(`App.js`, `leaderboard.js`, `levels.js`, `statistics` and `achievements`
modules), together with theorems settling the specification claims.

JS number arithmetic on the small integer quantities involved is modelled
exactly: integers as `Int`, fractional intermediate values (score
multipliers, averages) as `Rat`.
-/

namespace NGG

/-- JS `Math.round` on an exact rational: rounds half toward positive
infinity, i.e. `⌊q + 1/2⌋`. -/
def jsRound (q : ℚ) : ℤ := ⌊q + (1 : ℚ) / 2⌋

/-- `clamp(n, min, max) = Math.max(min, Math.min(max, n))` from App.js. -/
def ratClamp (n lo hi : ℚ) : ℚ := max lo (min hi n)

/-- `HINT_PENALTY = 100`: fixed penalty per distinct hint type used. -/
def HINT_PENALTY : ℤ := 100

/-- `TIME_BONUS_WEIGHT = 0.5`: time bonus of up to +50% on a timed win. -/
def TIME_BONUS_WEIGHT : ℚ := 1 / 2

/-- `MAX_FINAL_SCORE = 5000`: clamp on the final score. -/
def MAX_FINAL_SCORE : ℚ := 5000

/-- The three difficulty presets of the game. -/
inductive Difficulty
  | easy
  | medium
  | hard
deriving DecidableEq, Repr

/-- `DIFFICULTIES[d].min` from App.js. -/
def difficultyMin : Difficulty → ℤ
  | .easy => 1
  | .medium => 1
  | .hard => 1

/-- `DIFFICULTIES[d].max` from App.js. -/
def difficultyMax : Difficulty → ℤ
  | .easy => 20
  | .medium => 50
  | .hard => 100

/-- `MAX_ATTEMPTS` table from App.js. -/
def MAX_ATTEMPTS : Difficulty → ℤ
  | .easy => 6
  | .medium => 8
  | .hard => 10

/-- `TIMER_CHALLENGE_DEFAULTS` table from App.js (seconds). -/
def TIMER_CHALLENGE_DEFAULTS : Difficulty → ℤ
  | .easy => 30
  | .medium => 45
  | .hard => 60

/-- `computeScore(attemptCount, rangeMax)` from App.js:
`maxVal = Math.max(1, Number(rangeMax))`,
`raw = Math.round((1000 * (maxVal - attemptCount + 1)) / maxVal)`,
returns `Math.max(0, raw)`. -/
def computeScore (attemptCount rangeMax : ℤ) : ℤ :=
  let maxVal : ℤ := max 1 rangeMax
  let raw : ℤ := jsRound ((1000 * (maxVal - attemptCount + 1) : ℤ) / (maxVal : ℚ))
  max 0 raw

/-- The base-score formula exactly as the specification words it:
`round(1000 * (rangeMax' - attemptsUsed + 1) / rangeMax')` with
`rangeMax' = max(1, rangeMax)`, floored at 0. -/
def baseScoreSpec (attemptsUsed rangeMax : ℤ) : ℤ :=
  max 0 (jsRound ((1000 * ((max 1 rangeMax) - attemptsUsed + 1) : ℤ) / ((max 1 rangeMax : ℤ) : ℚ)))

theorem jsRound_mono {p q : ℚ} (h : p ≤ q) : jsRound p ≤ jsRound q := by
  unfold jsRound
  exact Int.floor_le_floor (by linarith)

theorem jsRound_intCast (n : ℤ) : jsRound (n : ℚ) = n := by
  unfold jsRound
  rw [Int.floor_eq_iff]
  constructor
  · linarith
  · linarith

theorem computeScore_nonneg (a m : ℤ) : 0 ≤ computeScore a m := by
  unfold computeScore
  exact le_max_left 0 _

theorem computeScore_anti {a b m : ℤ} (h : a ≤ b) :
    computeScore b m ≤ computeScore a m := by
  unfold computeScore
  have hmpos : (0 : ℚ) < ((max 1 m : ℤ) : ℚ) := by
    exact_mod_cast lt_of_lt_of_le zero_lt_one (le_max_left 1 m)
  refine max_le_max (le_refl (0 : ℤ)) (jsRound_mono ?_)
  refine (div_le_div_iff_of_pos_right hmpos).mpr ?_
  have hab : ((a : ℚ)) ≤ (b : ℚ) := by exact_mod_cast h
  push_cast
  linarith

theorem computeScore_one_twenty : computeScore 1 20 = 1000 := by
  norm_num [computeScore, jsRound]

/-- The win-scoring branch of `handleSubmit` in App.js:
`baseScore = computeScore(nextAttempts, range.max)`;
`penalty = Math.min(baseScore, hintCount * HINT_PENALTY)`;
`finalBase = Math.max(0, baseScore - penalty)`; when
`timerChallenge && totalTime > 0`, the final score is
`Math.round(clamp(finalBase * (1 + (Math.max(0, timeLeft) / totalTime) * TIME_BONUS_WEIGHT), 0, MAX_FINAL_SCORE))`,
otherwise `Math.round(clamp(finalBase, 0, MAX_FINAL_SCORE))`. -/
def winFinalScore (nextAttempts rangeMax : ℤ) (hintCount : ℕ)
    (timerChallenge : Bool) (timeLeft totalTime : ℤ) : ℤ :=
  let baseScore := computeScore nextAttempts rangeMax
  let penalty := min baseScore ((hintCount : ℤ) * HINT_PENALTY)
  let finalBase := max 0 (baseScore - penalty)
  if timerChallenge = true ∧ 0 < totalTime then
    jsRound (ratClamp ((finalBase : ℚ) *
      (1 + (((max 0 timeLeft : ℤ) : ℚ) / (totalTime : ℚ)) * TIME_BONUS_WEIGHT)) 0 MAX_FINAL_SCORE)
  else
    jsRound (ratClamp ((finalBase : ℚ)) 0 MAX_FINAL_SCORE)

/-- The final-score rule exactly as the specification words it:
`hintPenalty = min(baseScore, 100 * hintTypesUsedCount)`;
`timeBonusMultiplier = 1 + (remaining/total) * 0.5` when timer mode is
active with `total > 0`, else `1`; final score
`= round(clamp((baseScore - hintPenalty) * timeBonusMultiplier, 0, 5000))`. -/
def specFinalScore (attemptsUsed rangeMax : ℤ) (hintTypesUsedCount : ℕ)
    (timerActive : Bool) (remaining total : ℤ) : ℤ :=
  let baseScore := computeScore attemptsUsed rangeMax
  let hintPenalty := min baseScore (100 * (hintTypesUsedCount : ℤ))
  let timeBonusMultiplier : ℚ :=
    if timerActive = true ∧ 0 < total then 1 + ((remaining : ℚ) / (total : ℚ)) * (1 / 2) else 1
  jsRound (ratClamp (((baseScore - hintPenalty : ℤ) : ℚ) * timeBonusMultiplier) 0 5000)

theorem ratClamp_eq_self {x lo hi : ℚ} (h1 : lo ≤ x) (h2 : x ≤ hi) :
    ratClamp x lo hi = x := by
  unfold ratClamp
  rw [min_eq_right h2, max_eq_right h1]

theorem jsRound_le_intCast {q : ℚ} {n : ℤ} (h : q ≤ (n : ℚ)) : jsRound q ≤ n := by
  have : jsRound q ≤ jsRound (n : ℚ) := jsRound_mono (by linarith)
  rwa [jsRound_intCast] at this

theorem jsRound_lt_of_add_one_le {p q : ℚ} (h : p + 1 ≤ q) : jsRound p < jsRound q := by
  unfold jsRound
  have h1 : ⌊p + 1 / 2⌋ + 1 = ⌊p + 1 / 2 + 1⌋ := (Int.floor_add_int _ 1).symm
  have h2 : ⌊p + 1 / 2 + 1⌋ ≤ ⌊q + 1 / 2⌋ := Int.floor_le_floor (by linarith)
  omega

theorem computeScore_le_1000 {a m : ℤ} (ha : 1 ≤ a) : computeScore a m ≤ 1000 := by
  unfold computeScore
  have hM : (1 : ℤ) ≤ max 1 m := le_max_left 1 m
  have hMpos : (0 : ℚ) < ((max 1 m : ℤ) : ℚ) := by exact_mod_cast lt_of_lt_of_le zero_lt_one hM
  refine max_le (by norm_num) (jsRound_le_intCast ?_)
  rw [div_le_iff₀ hMpos]
  have haq : (1 : ℚ) ≤ (a : ℚ) := by exact_mod_cast ha
  push_cast
  nlinarith [hMpos]

/-- C2: for every `attemptsUsed` and `rangeMax`, the base score equals
`round(1000 * (rangeMax' - attemptsUsed + 1) / rangeMax')` with
`rangeMax' = max(1, rangeMax)`, floored at 0; it is monotonically
non-increasing in `attemptsUsed` for fixed `rangeMax`, and never
negative. -/
theorem C2_base_score_formula_monotone_nonneg (a b m : ℤ) (hab : a ≤ b) :
    computeScore a m = baseScoreSpec a m ∧
    computeScore b m ≤ computeScore a m ∧
    0 ≤ computeScore a m :=
  ⟨rfl, computeScore_anti hab, computeScore_nonneg a m⟩

/-- Witness for C2 at `attemptsUsed = 1 ≤ 2`, `rangeMax = 20`. -/
theorem C2_base_score_formula_monotone_nonneg_witness :
    computeScore 1 20 = baseScoreSpec 1 20 ∧
    computeScore 2 20 ≤ computeScore 1 20 ∧
    0 ≤ computeScore 1 20 :=
  C2_base_score_formula_monotone_nonneg 1 2 20 (by decide)

/-- C1: on a winning guess the final score equals
`round(clamp((baseScore - hintPenalty) * timeBonusMultiplier, 0, 5000))`,
where `hintPenalty = min(baseScore, 100 * hintTypesUsedCount)` and
`timeBonusMultiplier = 1 + (remaining/total) * 0.5` when timer mode is
active with `total > 0`, else `1`; in particular for two distinct hint
types used, `attemptsUsed = 1`, `rangeMax = 20` and no timer:
`baseScore = 1000`, `penalty = 200`, and the final score is `800`. -/
theorem C1_final_score_formula (a m : ℤ) (h : ℕ) (tc : Bool) (tl tt : ℤ)
    (hrem : tc = true → 0 ≤ tl) :
    winFinalScore a m h tc tl tt = specFinalScore a m h tc tl tt ∧
    computeScore 1 20 = 1000 ∧
    min (computeScore 1 20) ((2 : ℤ) * HINT_PENALTY) = 200 ∧
    winFinalScore 1 20 2 false 0 0 = 800 := by
  refine ⟨?_, computeScore_one_twenty, ?_, ?_⟩
  · simp only [winFinalScore, specFinalScore, HINT_PENALTY, TIME_BONUS_WEIGHT, MAX_FINAL_SCORE]
    have hmin : min (computeScore a m) ((h : ℤ) * 100) = min (computeScore a m) (100 * (h : ℤ)) := by
      rw [mul_comm]
    have hmax : max 0 (computeScore a m - min (computeScore a m) (100 * (h : ℤ)))
        = computeScore a m - min (computeScore a m) (100 * (h : ℤ)) :=
      max_eq_right (sub_nonneg.mpr (min_le_left _ _))
    by_cases htc : tc = true ∧ 0 < tt
    · rw [if_pos htc, if_pos htc, hmin, hmax, max_eq_right (hrem htc.1)]
    · rw [if_neg htc, if_neg htc, hmin, hmax, mul_one]
  · rw [computeScore_one_twenty]
    decide
  · norm_num [winFinalScore, computeScore, jsRound, ratClamp, HINT_PENALTY, MAX_FINAL_SCORE]

/-- Witness for C1 with one hint type, three attempts, timer active. -/
theorem C1_final_score_formula_witness :
    winFinalScore 3 50 1 true 5 45 = specFinalScore 3 50 1 true 5 45 ∧
    computeScore 1 20 = 1000 ∧
    min (computeScore 1 20) ((2 : ℤ) * HINT_PENALTY) = 200 ∧
    winFinalScore 1 20 2 false 0 0 = 800 :=
  C1_final_score_formula 3 50 1 true 5 45 (fun _ => by decide)

/-- C6: for every `N ≥ 1`, winning with `N` distinct hint types used yields
a strictly lower final score than winning with `0` hints at the same
attempt count, the penalty being `100 * N` capped at `baseScore` (stated
for winning states: at least one attempt, a positive base score, and a
timer remainder between `0` and the total when timer mode is active). -/
theorem C6_hints_strictly_lower_score (a m : ℤ) (N : ℕ) (tc : Bool) (tl tt : ℤ)
    (hN : 1 ≤ N) (ha : 1 ≤ a) (hbase : 0 < computeScore a m)
    (htimer : tc = true → 0 ≤ tl ∧ tl ≤ tt) :
    winFinalScore a m N tc tl tt < winFinalScore a m 0 tc tl tt := by
  simp only [winFinalScore, HINT_PENALTY, TIME_BONUS_WEIGHT, MAX_FINAL_SCORE,
    Nat.cast_zero, zero_mul]
  set b := computeScore a m with hbdef
  set p := min b ((N : ℤ) * 100) with hpdef
  have hb1000 : b ≤ 1000 := computeScore_le_1000 ha
  have hmin0 : min b (0 : ℤ) = 0 := min_eq_right hbase.le
  have hpenN : 1 ≤ p := by
    refine le_min hbase ?_
    have : (1 : ℤ) ≤ (N : ℤ) := by exact_mod_cast hN
    linarith
  have hpb : p ≤ b := min_le_left _ _
  have hmaxN : max 0 (b - p) = b - p := max_eq_right (sub_nonneg.mpr hpb)
  rw [hmin0, sub_zero, max_eq_right hbase.le, hmaxN]
  have hbq : (1 : ℚ) ≤ (b : ℚ) := by exact_mod_cast hbase
  have hbleq : (b : ℚ) ≤ 1000 := by exact_mod_cast hb1000
  have hpq : (1 : ℚ) ≤ (p : ℚ) := by exact_mod_cast hpenN
  have hpbq : (p : ℚ) ≤ (b : ℚ) := by exact_mod_cast hpb
  by_cases htc : tc = true ∧ 0 < tt
  · obtain ⟨h0tl, htltt⟩ := htimer htc.1
    rw [if_pos htc, if_pos htc]
    have httq : (0 : ℚ) < (tt : ℚ) := by exact_mod_cast htc.2
    have htlttq : (tl : ℚ) ≤ (tt : ℚ) := by exact_mod_cast htltt
    have hr0 : (0 : ℚ) ≤ max 0 (tl : ℚ) / (tt : ℚ) := div_nonneg (le_max_left 0 _) httq.le
    have hr1 : max 0 (tl : ℚ) / (tt : ℚ) ≤ 1 := by
      rw [div_le_one httq]
      exact max_le httq.le htlttq
    have hbon1 : (1 : ℚ) ≤ 1 + max 0 (tl : ℚ) / (tt : ℚ) * (1 / 2) := by linarith
    have hbon32 : 1 + max 0 (tl : ℚ) / (tt : ℚ) * (1 / 2) ≤ 3 / 2 := by linarith
    have hbon0 : (0 : ℚ) ≤ 1 + max 0 (tl : ℚ) / (tt : ℚ) * (1 / 2) := by linarith
    rw [ratClamp_eq_self
        (by push_cast
            nlinarith [mul_nonneg (sub_nonneg.mpr hpbq) hbon0])
        (by push_cast
            nlinarith [mul_le_mul (show (b : ℚ) - (p : ℚ) ≤ 1000 by linarith) hbon32 hbon0
              (by norm_num : (0 : ℚ) ≤ 1000)]),
      ratClamp_eq_self
        (by push_cast
            nlinarith [mul_nonneg (by linarith : (0 : ℚ) ≤ (b : ℚ)) hbon0])
        (by push_cast
            nlinarith [mul_le_mul hbleq hbon32 hbon0 (by norm_num : (0 : ℚ) ≤ 1000)])]
    apply jsRound_lt_of_add_one_le
    push_cast
    nlinarith [mul_le_mul hpq hbon1 zero_le_one (by linarith : (0 : ℚ) ≤ (p : ℚ))]
  · rw [if_neg htc, if_neg htc]
    rw [ratClamp_eq_self (by push_cast; linarith) (by push_cast; linarith),
      ratClamp_eq_self (by linarith) (by linarith)]
    apply jsRound_lt_of_add_one_le
    push_cast
    linarith

/-- Witness for C6 at one attempt, range max 20, two hints, no timer. -/
theorem C6_hints_strictly_lower_score_witness :
    winFinalScore 1 20 2 false 0 0 < winFinalScore 1 20 0 false 0 0 :=
  C6_hints_strictly_lower_score 1 20 2 false 0 0 (by decide) (by decide)
    (by simp [computeScore_one_twenty]) (fun h => by simp at h)

/-- A leaderboard entry as written by `addResult` in leaderboard.js
(the random `id` string is not modelled; `timeRemaining` and `totalTime`
are `null` or a number, modelled as `Option ℤ`). -/
structure LBEntry where
  timestamp : ℤ
  difficulty : Difficulty
  attempts : ℤ
  score : ℤ
  timerChallenge : Bool
  timeRemaining : Option ℤ
  totalTime : Option ℤ
deriving DecidableEq, Repr

/-- `addResult` in leaderboard.js: prepend the new entry to the stored
list and cap the combined list to 50 entries. -/
def addResult (e : LBEntry) (existing : List LBEntry) : List LBEntry :=
  (e :: existing).take 50

/-- The per-entry eligibility test of the fastest-win loop in
`computeStatisticsFromLeaderboard`: the entry must have `timerChallenge`
set, both `totalTime` and `timeRemaining` numeric, and a non-negative
elapsed time `totalTime - timeRemaining` (the JS `Number.isFinite` check
is vacuous on integers); yields that elapsed time. -/
def eligibleElapsed (e : LBEntry) : Option ℤ :=
  match e.timerChallenge, e.totalTime, e.timeRemaining with
  | true, some tt, some tr => if 0 ≤ tt - tr then some (tt - tr) else none
  | _, _, _ => none

/-- Elapsed time of an entry as the specification words it: any entry
with both `totalTime` and `timeRemaining` present counts, regardless of
its `timerChallenge` flag or the sign of the difference. -/
def claimElapsed (e : LBEntry) : Option ℤ :=
  match e.totalTime, e.timeRemaining with
  | some tt, some tr => some (tt - tr)
  | _, _ => none

/-- The `fastest` accumulation loop of `computeStatisticsFromLeaderboard`:
scan the entries in order, keeping the minimum eligible elapsed time. -/
def fastestLoop : Option ℤ → List LBEntry → Option ℤ
  | fastest, [] => fastest
  | fastest, e :: rest =>
    fastestLoop
      (match eligibleElapsed e with
        | some elapsed =>
          match fastest with
          | none => some elapsed
          | some f => some (min f elapsed)
        | none => fastest)
      rest

/-- The `highestScore` accumulation loop of
`computeStatisticsFromLeaderboard`. -/
def highestLoop : ℤ → List LBEntry → ℤ
  | h, [] => h
  | h, e :: rest => highestLoop (if e.score > h then e.score else h) rest

/-- The `sumAttempts` accumulation loop of
`computeStatisticsFromLeaderboard`. -/
def sumAttemptsLoop : ℤ → List LBEntry → ℤ
  | s, [] => s
  | s, e :: rest => sumAttemptsLoop (s + e.attempts) rest

/-- Result record of `computeStatisticsFromLeaderboard`. -/
structure Stats where
  totalGames : ℤ
  highestScore : ℤ
  fastestWinSeconds : Option ℤ
  averageAttempts : ℚ
deriving DecidableEq, Repr

/-- `computeStatisticsFromLeaderboard(entries, fallbackTotalGames)` from
the statistics module. -/
def computeStatisticsFromLeaderboard (entries : List LBEntry)
    (fallbackTotalGames : Option ℤ) : Stats :=
  let wins := entries
  let totalGames : ℤ :=
    match fallbackTotalGames with
    | some f => max f (wins.length : ℤ)
    | none => (wins.length : ℤ)
  let highestScore := highestLoop 0 wins
  let fastest := fastestLoop none wins
  let fastestWinSeconds : Option ℤ :=
    match fastest with
    | some f => some (jsRound (f : ℚ))
    | none => none
  if wins.length = 0 then
    { totalGames := totalGames, highestScore := 0,
      fastestWinSeconds := fastestWinSeconds, averageAttempts := 0 }
  else
    let sumAttempts := sumAttemptsLoop 0 wins
    let avg : ℚ := (sumAttempts : ℚ) / (wins.length : ℚ)
    { totalGames := totalGames, highestScore := highestScore,
      fastestWinSeconds := fastestWinSeconds,
      averageAttempts := ((jsRound (avg * 10) : ℤ) : ℚ) / 10 }

/-- Minimum of a list of integers, `none` on the empty list. -/
def minList : List ℤ → Option ℤ
  | [] => none
  | x :: xs =>
    match minList xs with
    | none => some x
    | some y => some (min x y)

/-- Minimum of two optional integers, `none` absorbing. -/
def optMin : Option ℤ → Option ℤ → Option ℤ
  | none, b => b
  | some a, none => some a
  | some a, some b => some (min a b)

theorem optMin_assoc (a b c : Option ℤ) :
    optMin (optMin a b) c = optMin a (optMin b c) := by
  cases a <;> cases b <;> cases c <;> simp [optMin, min_assoc]

theorem minList_cons (x : ℤ) (xs : List ℤ) :
    minList (x :: xs) = optMin (some x) (minList xs) := by
  cases h : minList xs <;> simp [minList, optMin, h]

theorem fastestLoop_eq (l : List LBEntry) :
    ∀ acc : Option ℤ,
      fastestLoop acc l = optMin acc (minList (l.filterMap eligibleElapsed)) := by
  induction l with
  | nil =>
    intro acc
    cases acc <;> rfl
  | cons e rest ih =>
    intro acc
    cases he : eligibleElapsed e with
    | none =>
      simp only [fastestLoop, he, List.filterMap_cons, ih]
    | some v =>
      have hstep : (match acc with
          | none => some v
          | some f => some (min f v)) = optMin acc (some v) := by
        cases acc <;> rfl
      simp only [fastestLoop, he, List.filterMap_cons, ih, minList_cons]
      rw [hstep, optMin_assoc]

/-- C7 counterexample: an entry with both timer fields present but the
`timerChallenge` flag unset is ignored by the code, while the claim's
formula counts it; the derived statistic is `none`, not the claimed
minimum `10 - 3 = 7`. -/
theorem C7_fastest_win_counterexample :
    (computeStatisticsFromLeaderboard
        [⟨0, .easy, 1, 100, false, some 3, some 10⟩] none).fastestWinSeconds = none ∧
    minList (List.filterMap claimElapsed
        [⟨0, .easy, 1, 100, false, some 3, some 10⟩]) = some 7 ∧
    (computeStatisticsFromLeaderboard
        [⟨0, .easy, 1, 100, false, some 3, some 10⟩] none).fastestWinSeconds ≠
      minList (List.filterMap claimElapsed
        [⟨0, .easy, 1, 100, false, some 3, some 10⟩]) := by
  refine ⟨rfl, rfl, fun h => ?_⟩
  exact Option.noConfusion (((rfl :
    (computeStatisticsFromLeaderboard
        [⟨0, .easy, 1, 100, false, some 3, some 10⟩] none).fastestWinSeconds = none).symm.trans h).trans
    (rfl : minList (List.filterMap claimElapsed
        [⟨0, .easy, 1, 100, false, some 3, some 10⟩]) = some 7))

/-- C7 (amended): `fastestWinSeconds` equals the minimum of
`totalTime - timeRemaining` over the entries with `timerChallenge` set,
both timer fields present, and a non-negative elapsed time, and is `none`
when no such entry exists. -/
theorem C7_fastest_win_minimum (entries : List LBEntry) (fb : Option ℤ) :
    (computeStatisticsFromLeaderboard entries fb).fastestWinSeconds =
      minList (entries.filterMap eligibleElapsed) := by
  unfold computeStatisticsFromLeaderboard
  have hfl := fastestLoop_eq entries none
  by_cases hlen : entries.length = 0
  · simp only [hlen, if_pos rfl]
    cases hm : minList (entries.filterMap eligibleElapsed) with
    | none => simp [hfl, hm, optMin]
    | some v => simp [hfl, hm, optMin, jsRound_intCast]
  · simp only [if_neg hlen]
    cases hm : minList (entries.filterMap eligibleElapsed) with
    | none => simp [hfl, hm, optMin]
    | some v => simp [hfl, hm, optMin, jsRound_intCast]

/-- The two achievement keys of the achievements module. -/
inductive AchKey
  | firstTryWin
  | noHintsWin
deriving DecidableEq, Repr

/-- The persistent achievements record:
`{ firstTryWin, noHintsWin, unlockedAt: { firstTryWin?, noHintsWin? } }`. -/
structure Achievements where
  firstTryWin : Bool
  noHintsWin : Bool
  unlockedAtFirstTryWin : Option ℤ
  unlockedAtNoHintsWin : Option ℤ
deriving DecidableEq, Repr

/-- `next[key]` truthiness read on the achievements record. -/
def Achievements.get (a : Achievements) : AchKey → Bool
  | .firstTryWin => a.firstTryWin
  | .noHintsWin => a.noHintsWin

/-- `unlockedAt[key]` read on the achievements record. -/
def Achievements.unlockedAt (a : Achievements) : AchKey → Option ℤ
  | .firstTryWin => a.unlockedAtFirstTryWin
  | .noHintsWin => a.unlockedAtNoHintsWin

/-- `next[key] = true; next.unlockedAt[key] = timestamp` on the record. -/
def Achievements.setUnlocked (a : Achievements) (k : AchKey) (ts : ℤ) : Achievements :=
  match k with
  | .firstTryWin => { a with firstTryWin := true, unlockedAtFirstTryWin := some ts }
  | .noHintsWin => { a with noHintsWin := true, unlockedAtNoHintsWin := some ts }

/-- The `for (const key of keysToUnlock)` loop of `unlockAchievements`:
a key not yet set is marked unlocked with the given timestamp and pushed
onto `newly`; keys already set are skipped. -/
def unlockLoop (next : Achievements) (keys : List AchKey) (timestamp : ℤ)
    (newly : List AchKey) : Achievements × List AchKey :=
  match keys with
  | [] => (next, newly)
  | k :: rest =>
    if next.get k = false then
      unlockLoop (next.setUnlocked k timestamp) rest timestamp (newly ++ [k])
    else
      unlockLoop next rest timestamp newly

/-- `unlockAchievements(current, keysToUnlock, timestamp)` from the
achievements module. -/
def unlockAchievements (current : Achievements) (keysToUnlock : List AchKey)
    (timestamp : ℤ) : Achievements × List AchKey :=
  unlockLoop current keysToUnlock timestamp []

/-- A sequence of unlock operations applied in order, each with its own
requested keys and timestamp. -/
def applyUnlockOps (a : Achievements) (ops : List (List AchKey × ℤ)) : Achievements :=
  ops.foldl (fun acc op => (unlockAchievements acc op.1 op.2).1) a

theorem setUnlocked_get_other (a : Achievements) {j k : AchKey} (h : j ≠ k) (ts : ℤ) :
    (a.setUnlocked j ts).get k = a.get k := by
  cases j <;> cases k <;> first | exact absurd rfl h | rfl

theorem setUnlocked_unlockedAt_other (a : Achievements) {j k : AchKey} (h : j ≠ k) (ts : ℤ) :
    (a.setUnlocked j ts).unlockedAt k = a.unlockedAt k := by
  cases j <;> cases k <;> first | exact absurd rfl h | rfl

theorem setUnlocked_get_self (a : Achievements) (k : AchKey) (ts : ℤ) :
    (a.setUnlocked k ts).get k = true := by
  cases k <;> rfl

theorem setUnlocked_unlockedAt_self (a : Achievements) (k : AchKey) (ts : ℤ) :
    (a.setUnlocked k ts).unlockedAt k = some ts := by
  cases k <;> rfl

theorem unlockLoop_get_mono (keys : List AchKey) :
    ∀ (a : Achievements) (ts : ℤ) (nl : List AchKey) (k : AchKey),
      a.get k = true → (unlockLoop a keys ts nl).1.get k = true := by
  induction keys with
  | nil => intro a ts nl k h; exact h
  | cons j rest ih =>
    intro a ts nl k h
    unfold unlockLoop
    by_cases hj : a.get j = false
    · rw [if_pos hj]
      have hne : j ≠ k := fun he => by rw [he, h] at hj; exact absurd hj (by simp)
      exact ih _ ts _ k (by rw [setUnlocked_get_other a hne, h])
    · rw [if_neg hj]
      exact ih _ ts _ k h

theorem unlockLoop_unlockedAt_stable (keys : List AchKey) :
    ∀ (a : Achievements) (ts : ℤ) (nl : List AchKey) (k : AchKey),
      a.get k = true → (unlockLoop a keys ts nl).1.unlockedAt k = a.unlockedAt k := by
  induction keys with
  | nil => intro a ts nl k _; rfl
  | cons j rest ih =>
    intro a ts nl k h
    unfold unlockLoop
    by_cases hj : a.get j = false
    · rw [if_pos hj]
      have hne : j ≠ k := fun he => by rw [he, h] at hj; exact absurd hj (by simp)
      rw [ih _ ts _ k (by rw [setUnlocked_get_other a hne, h]),
        setUnlocked_unlockedAt_other a hne]
    · rw [if_neg hj]
      exact ih _ ts _ k h

theorem unlockLoop_first_unlock_timestamp (keys : List AchKey) :
    ∀ (a : Achievements) (ts : ℤ) (nl : List AchKey) (k : AchKey),
      a.get k = false → (unlockLoop a keys ts nl).1.get k = true →
      (unlockLoop a keys ts nl).1.unlockedAt k = some ts := by
  induction keys with
  | nil =>
    intro a ts nl k hf ht
    exact absurd (hf ▸ ht) (by simp)
  | cons j rest ih =>
    intro a ts nl k hf ht
    unfold unlockLoop at ht ⊢
    by_cases hj : a.get j = false
    · rw [if_pos hj] at ht ⊢
      by_cases hjk : j = k
      · subst hjk
        rw [unlockLoop_unlockedAt_stable rest _ ts _ j (setUnlocked_get_self a j ts),
          setUnlocked_unlockedAt_self]
      · exact ih _ ts _ k (by rw [setUnlocked_get_other a hjk, hf]) ht
    · rw [if_neg hj] at ht ⊢
      exact ih _ ts _ k hf ht

theorem unlockLoop_noop (keys : List AchKey) :
    ∀ (a : Achievements) (ts : ℤ) (nl : List AchKey),
      (∀ j ∈ keys, a.get j = true) → unlockLoop a keys ts nl = (a, nl) := by
  induction keys with
  | nil => intro a ts nl _; rfl
  | cons j rest ih =>
    intro a ts nl h
    unfold unlockLoop
    rw [if_neg (by rw [h j (List.mem_cons_self j rest)]; simp)]
    exact ih a ts nl (fun i hi => h i (List.mem_cons_of_mem j hi))

theorem applyUnlockOps_get_mono (ops : List (List AchKey × ℤ)) :
    ∀ (a : Achievements) (k : AchKey),
      a.get k = true → (applyUnlockOps a ops).get k = true := by
  induction ops with
  | nil => intro a k h; exact h
  | cons op rest ih =>
    intro a k h
    exact ih _ k (unlockLoop_get_mono op.1 a op.2 [] k h)

theorem applyUnlockOps_unlockedAt_stable (ops : List (List AchKey × ℤ)) :
    ∀ (a : Achievements) (k : AchKey),
      a.get k = true → (applyUnlockOps a ops).unlockedAt k = a.unlockedAt k := by
  induction ops with
  | nil => intro a k _; rfl
  | cons op rest ih =>
    intro a k h
    have h1 := unlockLoop_get_mono op.1 a op.2 [] k h
    have h2 := unlockLoop_unlockedAt_stable op.1 a op.2 [] k h
    exact (ih _ k h1).trans h2

/-- C8: once an achievement's unlocked flag is `true` it stays `true`
under every further sequence of unlock operations, its `unlockedAt`
timestamp then never changes (so it is set exactly once, on the first
unlock, where it receives that operation's timestamp), and re-triggering
achievements that are already unlocked returns the record unchanged with
no newly-unlocked keys. -/
theorem C8_achievement_unlock_invariants (a : Achievements) (k : AchKey)
    (keys : List AchKey) (ts : ℤ) (ops : List (List AchKey × ℤ)) :
    (a.get k = true → (applyUnlockOps a ops).get k = true) ∧
    (a.get k = true → (applyUnlockOps a ops).unlockedAt k = a.unlockedAt k) ∧
    (a.get k = false → (unlockAchievements a keys ts).1.get k = true →
      (unlockAchievements a keys ts).1.unlockedAt k = some ts) ∧
    ((∀ j ∈ keys, a.get j = true) → unlockAchievements a keys ts = (a, [])) :=
  ⟨applyUnlockOps_get_mono ops a k,
   applyUnlockOps_unlockedAt_stable ops a k,
   unlockLoop_first_unlock_timestamp keys a ts [] k,
   unlockLoop_noop keys a ts []⟩

/-- Witness for C8: a record with `firstTryWin` already unlocked at time
`7` and `noHintsWin` locked, one unlock operation requesting both keys at
time `9`. -/
theorem C8_achievement_unlock_invariants_witness :
    (applyUnlockOps ⟨true, false, some 7, none⟩
        [([AchKey.firstTryWin, AchKey.noHintsWin], 9)]).get .firstTryWin = true ∧
    (applyUnlockOps ⟨true, false, some 7, none⟩
        [([AchKey.firstTryWin, AchKey.noHintsWin], 9)]).unlockedAt .firstTryWin =
      Achievements.unlockedAt ⟨true, false, some 7, none⟩ .firstTryWin ∧
    (unlockAchievements ⟨true, false, some 7, none⟩ [AchKey.noHintsWin] 9).1.unlockedAt
        .noHintsWin = some 9 ∧
    unlockAchievements ⟨true, false, some 7, none⟩ [AchKey.firstTryWin] 9 =
      (⟨true, false, some 7, none⟩, []) := by
  have h := C8_achievement_unlock_invariants ⟨true, false, some 7, none⟩ .firstTryWin
    [AchKey.firstTryWin, AchKey.noHintsWin] 9 [([AchKey.firstTryWin, AchKey.noHintsWin], 9)]
  have h2 := C8_achievement_unlock_invariants ⟨true, false, some 7, none⟩ .noHintsWin
    [AchKey.noHintsWin] 9 []
  have h3 := C8_achievement_unlock_invariants ⟨true, false, some 7, none⟩ .firstTryWin
    [AchKey.firstTryWin] 9 []
  exact ⟨h.1 rfl, h.2.1 rfl, h2.2.2.1 rfl (by decide),
    h3.2.2.2 (by decide)⟩

/-- The level identifiers of levels.js (`LEVELS`). -/
inductive Level
  | beginner
  | intermediate
  | expert
deriving DecidableEq, Repr

/-- `LEVEL_ORDER` from levels.js. -/
def LEVEL_ORDER : List Level := [.beginner, .intermediate, .expert]

/-- `LEVEL_PRESET_DIFFICULTY` from levels.js. -/
def LEVEL_PRESET_DIFFICULTY : Level → Difficulty
  | .beginner => .easy
  | .intermediate => .medium
  | .expert => .hard

/-- `getNextLevel(currentLevel)` from levels.js: the entry after the
current one in `LEVEL_ORDER`, or `none` at the last level. (`indexOf`
can never return `-1` here because `Level` has exactly the listed
values.) -/
def getNextLevel (currentLevel : Level) : Option Level :=
  let idx := LEVEL_ORDER.indexOf currentLevel
  if LEVEL_ORDER.length - 1 ≤ idx then none
  else LEVEL_ORDER[idx + 1]?

/-- One element of the `unlocked` array found in stored level progress:
either a valid level name or some other JSON value. -/
inductive StoredItem
  | valid (l : Level)
  | invalid
deriving DecidableEq, Repr

/-- The possible shapes of the persisted level-progress value:
absent, unparsable/ill-shaped JSON, or an `unlocked` array. -/
inductive StoredProgress
  | missing
  | corrupt
  | list (items : List StoredItem)
deriving DecidableEq, Repr

/-- The `filter` in `readLevelProgress`: keep the entries naming a level
of `LEVEL_ORDER`. -/
def validLevels (items : List StoredItem) : List Level :=
  items.filterMap fun i =>
    match i with
    | .valid l => some l
    | .invalid => none

/-- `readLevelProgress()` from levels.js. JS `Set`s are modelled as lists
up to membership. Missing or corrupt data, or a stored list with no
valid level, falls back to `{Beginner}`; otherwise the stored valid
levels are returned as-is. -/
def readLevelProgress : StoredProgress → List Level
  | .missing => [.beginner]
  | .corrupt => [.beginner]
  | .list items =>
    let valid := validLevels items
    if valid = [] then [.beginner] else valid

/-- `unlockNextLevelIfEligible(currentLevel)` from App.js, as a pure
function of the current level and unlocked set: adds the next level when
there is one and it is not already unlocked. -/
def unlockNextLevelIfEligible (currentLevel : Level) (unlockedLevels : List Level) :
    List Level :=
  match getNextLevel currentLevel with
  | none => unlockedLevels
  | some next =>
    if next ∈ unlockedLevels then unlockedLevels
    else unlockedLevels ++ [next]

/-- Round status (`'playing' | 'won' | 'timeout' | 'out_of_attempts'`). -/
inductive Status
  | playing
  | won
  | timeout
  | outOfAttempts
deriving DecidableEq, Repr

/-- Guess classification (`'correct' | 'too low' | 'too high'`). -/
inductive GuessResult
  | correct
  | tooLow
  | tooHigh
deriving DecidableEq, Repr

/-- A guess-history entry (`makeHistoryEntry`); the wall-clock `ts` and
random `id` fields are not modelled. -/
structure HistoryEntry where
  index : ℕ
  value : ℤ
  result : GuessResult
deriving DecidableEq, Repr

/-- The four hint types (`HINT_TYPES`). -/
inductive HintType
  | parity
  | range
  | digit
  | proximity
deriving DecidableEq, Repr

/-- The `hintTypesUsed` flag object. -/
structure HintFlags where
  parity : Bool
  range : Bool
  digit : Bool
  proximity : Bool
deriving DecidableEq, Repr

/-- Read one flag of `hintTypesUsed`. -/
def HintFlags.get (h : HintFlags) : HintType → Bool
  | .parity => h.parity
  | .range => h.range
  | .digit => h.digit
  | .proximity => h.proximity

/-- The update `announceHint` performs on `hintTypesUsed`: mark the type
used. (The JS code returns the object unchanged when the flag is already
set; the result is the same either way.) -/
def HintFlags.set (h : HintFlags) : HintType → HintFlags
  | .parity => { h with parity := true }
  | .range => { h with range := true }
  | .digit => { h with digit := true }
  | .proximity => { h with proximity := true }

/-- `hintCount`: `Object.values(hintTypesUsed).filter(Boolean).length`. -/
def HintFlags.count (h : HintFlags) : ℕ :=
  (List.filter (fun b => b) [h.parity, h.range, h.digit, h.proximity]).length

/-- Abstraction of the raw text in the guess field, classified by the
checks `validateInput` performs: `blank` trims to the empty string (JS
coerces such strings to the number `0`), `notNumeric` has `Number(value)`
NaN, `nonIntegral` is numeric but fails `Number.isInteger`, and
`intVal n` denotes the integer `n`. -/
inductive RawInput
  | blank
  | notNumeric
  | nonIntegral
  | intVal (n : ℤ)
deriving DecidableEq, Repr

/-- Feedback / hint / warning message contents: the i18n keys used by the
component together with their parameters. -/
inductive Msg
  | none
  | guessLabel
  | submitGuessTitle
  | guessPlaceholder (lo hi : ℤ)
  | repeatWarn (guess : ℤ)
  | historyItemAria (value : ℤ) (result : GuessResult)
  | feedbackTimeoutRoundOver
  | feedbackLow
  | feedbackHigh
  | feedbackOutAttempts
  | feedbackCorrect (secret score : ℤ)
  | feedbackCorrectTimebonus (secret score bonus : ℤ)
  | hintParityText (even : Bool)
  | hintRangeText (lo hi : ℤ)
  | hintDigitSingle (digit : Char)
  | hintDigitMulti (digit : Char)
  | hintProximityNeedGuess
  | hintProximityAlreadyCorrect
  | hintProximityVeryClose
  | hintProximityHot
  | hintProximityWarm
  | hintProximityCold
  | hintProximityAfterValid
deriving DecidableEq, Repr

/-- Result of `validateInput`: an error with its message, or the parsed
integer guess. -/
inductive ValResult
  | err (message : Msg)
  | ok (value : ℤ)
deriving DecidableEq, Repr

/-- `validateInput(value)` from App.js: reject blank input, then
non-numeric, then non-integral, then out-of-range values; otherwise
accept the integer. -/
def validateInput (rmin rmax : ℤ) : RawInput → ValResult
  | .blank => .err .guessLabel
  | .notNumeric => .err .submitGuessTitle
  | .nonIntegral => .err .submitGuessTitle
  | .intVal n =>
    if n < rmin ∨ rmax < n then .err (.guessPlaceholder rmin rmax)
    else .ok n

/-- `isRepeatGuess(num)`: whether the value already appears in the
current round's history. -/
def isRepeatGuess (history : List HistoryEntry) (num : ℤ) : Bool :=
  history.any fun h => h.value == num

/-- The externally observable outcome of one `handleSubmit` call. -/
inductive SubmitOutcome
  | ignoredTerminal
  | rejectedInvalid (message : Msg)
  | rejectedRepeat (guess : ℤ)
  | accepted (result : GuessResult)
deriving DecidableEq, Repr

/-- The component state of `App` relevant to the round state machine,
scoring, leaderboard, achievements and level progression. Presentation
state (theme, modal visibility, toast timers, audio) is omitted. -/
structure AppState where
  level : Level
  unlockedLevels : List Level
  difficulty : Difficulty
  rmin : ℤ
  rmax : ℤ
  secret : ℤ
  input : RawInput
  feedback : Msg
  status : Status
  attempts : ℤ
  score : ℤ
  achievements : Achievements
  roundNewlyUnlocked : List AchKey
  hints : HintFlags
  lastHint : Msg
  history : List HistoryEntry
  repeatWarning : Msg
  historyLive : Msg
  timerChallenge : Bool
  timeLeft : ℤ
  totalTime : ℤ
  winTimeBonusPct : ℤ
  leaderboard : List LBEntry
  totalGames : ℤ
deriving DecidableEq, Repr

/-- `timeBonusPct` computed in the win branch:
`Math.round((bonus - 1) * 100)` when the timer is on with positive total,
else `0`. -/
def timeBonusPctOnWin (tc : Bool) (tl tt : ℤ) : ℤ :=
  if tc = true ∧ 0 < tt then
    jsRound ((1 + (((max 0 tl : ℤ) : ℚ) / (tt : ℚ)) * TIME_BONUS_WEIGHT - 1) * 100)
  else 0

/-- The `LeaderboardEntry` assembled in the win branch of
`handleSubmit` and passed to `addResult`. -/
def winEntry (now : ℤ) (s : AppState) (nextAttempts finalScore : ℤ) : LBEntry :=
  { timestamp := now
    difficulty := s.difficulty
    attempts := nextAttempts
    score := finalScore
    timerChallenge := s.timerChallenge
    timeRemaining := if s.timerChallenge then some (max 0 s.timeLeft) else Option.none
    totalTime := if s.timerChallenge then some s.totalTime else Option.none }

/-- The classification of a fresh guess in `handleSubmit`
(`'correct' | 'too low' | 'too high'`). -/
def classifyGuess (guess secret : ℤ) : GuessResult :=
  if guess = secret then .correct
  else if guess < secret then .tooLow
  else .tooHigh

/-- The guess-history entry appended for a fresh unique guess
(`makeHistoryEntry(prev.length + 1, guess, resultLabel)`). -/
def appendHistory (history : List HistoryEntry) (guess : ℤ)
    (resultLabel : GuessResult) : List HistoryEntry :=
  history ++ [⟨history.length + 1, guess, resultLabel⟩]

/-- The state written by the `resultLabel === 'correct'` branch of
`handleSubmit`: attempts and history updated, final score and time-bonus
percentage computed, leaderboard entry appended, win feedback, status
`won`, lifetime counter incremented, next level possibly unlocked, and
achievements evaluated (`firstTryWin` on a first-attempt win,
`noHintsWin` with no hint types used). -/
def winState (now : ℤ) (s : AppState) (guess : ℤ) (resultLabel : GuessResult) : AppState :=
  let nextAttempts := s.attempts + 1
  let finalScore :=
    winFinalScore nextAttempts s.rmax s.hints.count s.timerChallenge s.timeLeft s.totalTime
  let bonusPct := timeBonusPctOnWin s.timerChallenge s.timeLeft s.totalTime
  let toUnlock :=
    (if nextAttempts = 1 then [AchKey.firstTryWin] else []) ++
    (if s.hints.count = 0 then [AchKey.noHintsWin] else [])
  let ach := unlockAchievements s.achievements toUnlock now
  { s with
      repeatWarning := .none
      attempts := nextAttempts
      history := appendHistory s.history guess resultLabel
      historyLive := .historyItemAria guess resultLabel
      score := finalScore
      winTimeBonusPct := bonusPct
      leaderboard := addResult (winEntry now s nextAttempts finalScore) s.leaderboard
      feedback :=
        if s.timerChallenge then .feedbackCorrectTimebonus s.secret finalScore bonusPct
        else .feedbackCorrect s.secret finalScore
      status := .won
      totalGames := s.totalGames + 1
      unlockedLevels := unlockNextLevelIfEligible s.level s.unlockedLevels
      achievements := ach.1
      roundNewlyUnlocked := ach.2 }

/-- The state written by the wrong-guess path of `handleSubmit` when the
attempt budget is exhausted (`remaining <= 0`): round over. -/
def outOfAttemptsState (s : AppState) (guess : ℤ) (resultLabel : GuessResult) : AppState :=
  { s with
      repeatWarning := .none
      attempts := s.attempts + 1
      history := appendHistory s.history guess resultLabel
      historyLive := .historyItemAria guess resultLabel
      feedback := .feedbackOutAttempts
      status := .outOfAttempts
      totalGames := s.totalGames + 1 }

/-- The state written by the wrong-guess path of `handleSubmit` when
attempts remain: only feedback, attempts, and history change. -/
def continueState (s : AppState) (guess : ℤ) (resultLabel : GuessResult) : AppState :=
  { s with
      repeatWarning := .none
      attempts := s.attempts + 1
      history := appendHistory s.history guess resultLabel
      historyLive := .historyItemAria guess resultLabel
      feedback := if resultLabel = .tooLow then .feedbackLow else .feedbackHigh }

/-- `handleSubmit` from App.js (`now` stands for `Date.now()`): no-op in
a terminal status; reject invalid input (feedback message only); reject
repeated guesses (repeat warning only); otherwise count the attempt,
append to history, and either conclude the win or report
too-low/too-high, ending the round when the attempt budget is exhausted.
A new unique guess clears any prior repeat warning (the JS guard only
skips a redundant state write). -/
def handleSubmit (now : ℤ) (s : AppState) : AppState × SubmitOutcome :=
  if s.status = .won ∨ s.status = .timeout ∨ s.status = .outOfAttempts then
    (s, .ignoredTerminal)
  else
    match validateInput s.rmin s.rmax s.input with
    | .err message => ({ s with feedback := message }, .rejectedInvalid message)
    | .ok guess =>
      if isRepeatGuess s.history guess then
        ({ s with repeatWarning := .repeatWarn guess }, .rejectedRepeat guess)
      else
        let nextAttempts := s.attempts + 1
        let resultLabel := classifyGuess guess s.secret
        if resultLabel = .correct then
          (winState now s guess resultLabel, .accepted resultLabel)
        else if MAX_ATTEMPTS s.difficulty - nextAttempts ≤ 0 then
          (outOfAttemptsState s guess resultLabel, .accepted resultLabel)
        else
          (continueState s guess resultLabel, .accepted resultLabel)

/-- One firing of the 1-second interval callback installed by
`resetAndMaybeStartTimer`: `next = prev - 1`; at `next <= 0` the round
times out (status, feedback, lifetime game counter), otherwise only the
remaining time decreases. The interval exists only while timer mode is
on and the round is `playing` (it is started only under that condition
and cleared on every transition out of `playing`), hence the guard. -/
def timerTick (s : AppState) : AppState :=
  if s.timerChallenge = true ∧ s.status = .playing then
    if s.timeLeft - 1 ≤ 0 then
      { s with
          timeLeft := 0
          status := .timeout
          feedback := .feedbackTimeoutRoundOver
          totalGames := s.totalGames + 1 }
    else { s with timeLeft := s.timeLeft - 1 }
  else s

/-- `announceHint(text, typeKey)`: show the hint as last hint and
feedback and mark the hint type used. -/
def announceHint (text : Msg) (typeKey : HintType) (s : AppState) : AppState :=
  { s with lastHint := text, feedback := text, hints := s.hints.set typeKey }

/-- `handleParityHint` from App.js. -/
def handleParityHint (s : AppState) : AppState :=
  if s.status ≠ .playing then s
  else announceHint (.hintParityText (s.secret % 2 == 0)) .parity s

/-- `handleRangeHint` from App.js (JS `Math.floor` of a real quotient is
`Int.fdiv` on integers). -/
def handleRangeHint (s : AppState) : AppState :=
  if s.status ≠ .playing then s
  else
    let totalSpan := s.rmax - s.rmin + 1
    let targetWidth := min (max 5 (totalSpan.fdiv 3)) (max 3 (totalSpan - 2))
    let half := targetWidth.fdiv 2
    let start0 := max s.rmin (s.secret - half)
    let stop0 := start0 + targetWidth - 1
    let start1 := if s.rmax < stop0 then max s.rmin (s.rmax - targetWidth + 1) else start0
    let stop1 := if s.rmax < stop0 then s.rmax else stop0
    let start2 := if start1 = s.rmin ∧ stop1 = s.rmax ∧ 5 < totalSpan then s.rmin + 1 else start1
    let stop2 := if start1 = s.rmin ∧ stop1 = s.rmax ∧ 5 < totalSpan then s.rmax - 1 else stop1
    let start3 := if s.secret < start2 then s.secret else start2
    let stop3 := if stop2 < s.secret then s.secret else stop2
    announceHint (.hintRangeText start3 stop3) .range s

/-- `handleDigitHint` from App.js: first character of `String(secret)`,
with a distinct message for single-digit secrets. -/
def handleDigitHint (s : AppState) : AppState :=
  if s.status ≠ .playing then s
  else
    let str := toString s.secret
    let startDigit := str.front
    let text :=
      if str.length = 1 then Msg.hintDigitSingle startDigit
      else Msg.hintDigitMulti startDigit
    announceHint text .digit s

/-- `Number(input)` as used by `handleProximityHint`: blank strings
coerce to `0`, NaN and non-integral values are rejected by the
`Number.isNaN` / `Number.isInteger` checks that follow. -/
def proximityParsed : RawInput → Option ℤ
  | .blank => some 0
  | .notNumeric => Option.none
  | .nonIntegral => Option.none
  | .intVal n => some n

/-- `handleProximityHint` from App.js: the message is chosen by the
threshold chain (`delta` against 3 / 6 / 12) and announced once. -/
def handleProximityHint (s : AppState) : AppState :=
  if s.status ≠ .playing then s
  else if s.attempts ≤ 0 then announceHint .hintProximityNeedGuess .proximity s
  else
    let lastGuess : Option ℤ :=
      match proximityParsed s.input with
      | some n => if s.rmin ≤ n ∧ n ≤ s.rmax then some n else Option.none
      | Option.none => Option.none
    let msg : Msg :=
      match lastGuess with
      | some g =>
        let delta := |s.secret - g|
        if delta = 0 then .hintProximityAlreadyCorrect
        else if delta ≤ 3 then .hintProximityVeryClose
        else if delta ≤ 6 then .hintProximityHot
        else if delta ≤ 12 then .hintProximityWarm
        else .hintProximityCold
      | Option.none => .hintProximityAfterValid
    announceHint msg .proximity s

theorem handleSubmit_terminal (now : ℤ) (s : AppState)
    (h : s.status = .won ∨ s.status = .timeout ∨ s.status = .outOfAttempts) :
    handleSubmit now s = (s, .ignoredTerminal) := by
  unfold handleSubmit
  rw [if_pos h]

theorem handleSubmit_invalid (now : ℤ) (s : AppState) (msg : Msg)
    (hp : s.status = .playing)
    (hv : validateInput s.rmin s.rmax s.input = .err msg) :
    handleSubmit now s = ({ s with feedback := msg }, .rejectedInvalid msg) := by
  unfold handleSubmit
  rw [if_neg (by rw [hp]; simp), hv]

theorem handleSubmit_repeated (now : ℤ) (s : AppState) (guess : ℤ)
    (hp : s.status = .playing)
    (hv : validateInput s.rmin s.rmax s.input = .ok guess)
    (hr : isRepeatGuess s.history guess = true) :
    handleSubmit now s =
      ({ s with repeatWarning := .repeatWarn guess }, .rejectedRepeat guess) := by
  unfold handleSubmit
  rw [if_neg (by rw [hp]; simp), hv]
  simp only [hr, if_true]

theorem classifyGuess_correct {guess secret : ℤ} (h : guess = secret) :
    classifyGuess guess secret = .correct := by
  unfold classifyGuess
  rw [if_pos h]

theorem classifyGuess_ne_correct {guess secret : ℤ} (h : guess ≠ secret) :
    classifyGuess guess secret ≠ .correct := by
  unfold classifyGuess
  rw [if_neg h]
  split <;> simp

theorem handleSubmit_win (now : ℤ) (s : AppState) (guess : ℤ)
    (hp : s.status = .playing)
    (hv : validateInput s.rmin s.rmax s.input = .ok guess)
    (hr : isRepeatGuess s.history guess = false)
    (hc : guess = s.secret) :
    handleSubmit now s =
      (winState now s guess (classifyGuess guess s.secret),
        .accepted (classifyGuess guess s.secret)) := by
  unfold handleSubmit
  rw [if_neg (by rw [hp]; simp), hv]
  simp only [hr, Bool.false_eq_true, if_false]
  rw [if_pos (classifyGuess_correct hc)]

theorem handleSubmit_out_of_attempts (now : ℤ) (s : AppState) (guess : ℤ)
    (hp : s.status = .playing)
    (hv : validateInput s.rmin s.rmax s.input = .ok guess)
    (hr : isRepeatGuess s.history guess = false)
    (hc : guess ≠ s.secret)
    (hm : MAX_ATTEMPTS s.difficulty - (s.attempts + 1) ≤ 0) :
    handleSubmit now s =
      (outOfAttemptsState s guess (classifyGuess guess s.secret),
        .accepted (classifyGuess guess s.secret)) := by
  unfold handleSubmit
  rw [if_neg (by rw [hp]; simp), hv]
  simp only [hr, Bool.false_eq_true, if_false]
  rw [if_neg (classifyGuess_ne_correct hc), if_pos hm]

theorem handleSubmit_wrong_continue (now : ℤ) (s : AppState) (guess : ℤ)
    (hp : s.status = .playing)
    (hv : validateInput s.rmin s.rmax s.input = .ok guess)
    (hr : isRepeatGuess s.history guess = false)
    (hc : guess ≠ s.secret)
    (hm : ¬(MAX_ATTEMPTS s.difficulty - (s.attempts + 1) ≤ 0)) :
    handleSubmit now s =
      (continueState s guess (classifyGuess guess s.secret),
        .accepted (classifyGuess guess s.secret)) := by
  unfold handleSubmit
  rw [if_neg (by rw [hp]; simp), hv]
  simp only [hr, Bool.false_eq_true, if_false]
  rw [if_neg (classifyGuess_ne_correct hc), if_neg hm]

/-- C3: from `playing`, a correct unique valid guess moves the round to
`won`; a wrong unique valid guess that makes `attemptsUsed` equal
`maxAttempts` moves it to `out_of_attempts` (and a wrong guess with
attempts to spare keeps it `playing`); invalid or repeated input keeps
it `playing`; the timer reaching 0 while `playing` moves it to `timeout`
and increments the lifetime game counter by exactly 1 (a tick with time
to spare keeps it `playing`); and in any terminal state `handleSubmit`
is a no-op returning the state unchanged. -/
theorem C3_round_state_machine (now : ℤ) (s : AppState) (guess : ℤ) :
    (s.status = .playing →
      validateInput s.rmin s.rmax s.input = .ok guess →
      isRepeatGuess s.history guess = false →
      ((guess = s.secret → (handleSubmit now s).1.status = .won) ∧
        (guess ≠ s.secret → s.attempts + 1 = MAX_ATTEMPTS s.difficulty →
          (handleSubmit now s).1.status = .outOfAttempts) ∧
        (guess ≠ s.secret → s.attempts + 1 < MAX_ATTEMPTS s.difficulty →
          (handleSubmit now s).1.status = .playing))) ∧
    (s.status = .playing → ∀ msg, validateInput s.rmin s.rmax s.input = .err msg →
      (handleSubmit now s).1.status = .playing) ∧
    (s.status = .playing → validateInput s.rmin s.rmax s.input = .ok guess →
      isRepeatGuess s.history guess = true →
      (handleSubmit now s).1.status = .playing) ∧
    (s.timerChallenge = true → s.status = .playing → s.timeLeft - 1 ≤ 0 →
      (timerTick s).status = .timeout ∧ (timerTick s).totalGames = s.totalGames + 1) ∧
    (s.timerChallenge = true → s.status = .playing → 0 < s.timeLeft - 1 →
      (timerTick s).status = .playing) ∧
    ((s.status = .won ∨ s.status = .timeout ∨ s.status = .outOfAttempts) →
      handleSubmit now s = (s, .ignoredTerminal)) := by
  refine ⟨fun hp hv hr => ⟨fun hc => ?_, fun hc hm => ?_, fun hc hm => ?_⟩,
    fun hp msg hv => ?_, fun hp hv hr => ?_, fun htc hp ht => ?_, fun htc hp ht => ?_,
    handleSubmit_terminal now s⟩
  · rw [handleSubmit_win now s guess hp hv hr hc]
    rfl
  · rw [handleSubmit_out_of_attempts now s guess hp hv hr hc (by omega)]
    rfl
  · rw [handleSubmit_wrong_continue now s guess hp hv hr hc (by omega)]
    exact hp
  · rw [handleSubmit_invalid now s msg hp hv]
    exact hp
  · rw [handleSubmit_repeated now s guess hp hv hr]
    exact hp
  · unfold timerTick
    rw [if_pos ⟨htc, hp⟩, if_pos ht]
    exact ⟨rfl, rfl⟩
  · unfold timerTick
    rw [if_pos ⟨htc, hp⟩, if_neg (by omega)]
    exact hp

/-- A concrete playing state (easy difficulty, secret 7, the digit 7
typed) used to instantiate the claim theorems. -/
def sampleState : AppState :=
  { level := .beginner
    unlockedLevels := [.beginner]
    difficulty := .easy
    rmin := 1
    rmax := 20
    secret := 7
    input := .intVal 7
    feedback := .none
    status := .playing
    attempts := 0
    score := 0
    achievements := ⟨false, false, Option.none, Option.none⟩
    roundNewlyUnlocked := []
    hints := ⟨false, false, false, false⟩
    lastHint := .none
    history := []
    repeatWarning := .none
    historyLive := .none
    timerChallenge := false
    timeLeft := 30
    totalTime := 30
    winTimeBonusPct := 0
    leaderboard := []
    totalGames := 0 }

/-- Witness for C3: the transitions at concrete states. -/
theorem C3_round_state_machine_witness :
    (handleSubmit 0 sampleState).1.status = .won ∧
    (handleSubmit 0 { sampleState with secret := 8, attempts := 5 }).1.status = .outOfAttempts ∧
    (handleSubmit 0 { sampleState with secret := 8 }).1.status = .playing ∧
    (handleSubmit 0 { sampleState with input := .blank }).1.status = .playing ∧
    (handleSubmit 0 { sampleState with history := [⟨1, 7, .tooLow⟩] }).1.status = .playing ∧
    (timerTick { sampleState with timerChallenge := true, timeLeft := 1 }).status = .timeout ∧
    (timerTick { sampleState with timerChallenge := true, timeLeft := 1 }).totalGames = 1 ∧
    (timerTick { sampleState with timerChallenge := true, timeLeft := 10 }).status = .playing ∧
    handleSubmit 0 { sampleState with status := .won } =
      ({ sampleState with status := .won }, .ignoredTerminal) := by
  have h1 := C3_round_state_machine 0 sampleState 7
  have h2 := C3_round_state_machine 0 { sampleState with secret := 8, attempts := 5 } 7
  have h3 := C3_round_state_machine 0 { sampleState with secret := 8 } 7
  have h4 := C3_round_state_machine 0 { sampleState with input := .blank } 7
  have h5 := C3_round_state_machine 0 { sampleState with history := [⟨1, 7, .tooLow⟩] } 7
  have h6 := C3_round_state_machine 0 { sampleState with timerChallenge := true, timeLeft := 1 } 7
  have h7 := C3_round_state_machine 0 { sampleState with timerChallenge := true, timeLeft := 10 } 7
  have h8 := C3_round_state_machine 0 { sampleState with status := .won } 7
  exact ⟨(h1.1 rfl (by decide) (by decide)).1 (by decide),
    (h2.1 rfl (by decide) (by decide)).2.1 (by decide) (by decide),
    (h3.1 rfl (by decide) (by decide)).2.2 (by decide) (by decide),
    h4.2.1 rfl .guessLabel (by decide),
    h5.2.2.1 rfl (by decide) (by decide),
    (h6.2.2.2.1 rfl rfl (by decide)).1,
    (h6.2.2.2.1 rfl rfl (by decide)).2,
    h7.2.2.2.2.1 rfl rfl (by decide),
    h8.2.2.2.2.2 (Or.inl rfl)⟩

/-- C4: from `playing`, invalid input (blank, non-numeric, non-integral,
or out of range) yields a validation-error outcome and a repeated guess
yields a repeat outcome distinct from every validation error; in both
cases `attemptsUsed`, `history`, `status` and `secret` are unchanged. -/
theorem C4_rejects_leave_round_unchanged (now : ℤ) (s : AppState) (guess : ℤ) (msg : Msg) :
    (s.status = .playing → validateInput s.rmin s.rmax s.input = .err msg →
      (handleSubmit now s).2 = .rejectedInvalid msg ∧
      (handleSubmit now s).1.attempts = s.attempts ∧
      (handleSubmit now s).1.history = s.history ∧
      (handleSubmit now s).1.status = s.status ∧
      (handleSubmit now s).1.secret = s.secret) ∧
    (s.status = .playing → validateInput s.rmin s.rmax s.input = .ok guess →
      isRepeatGuess s.history guess = true →
      (handleSubmit now s).2 = .rejectedRepeat guess ∧
      (handleSubmit now s).1.attempts = s.attempts ∧
      (handleSubmit now s).1.history = s.history ∧
      (handleSubmit now s).1.status = s.status ∧
      (handleSubmit now s).1.secret = s.secret ∧
      (∀ m : Msg, SubmitOutcome.rejectedRepeat guess ≠ SubmitOutcome.rejectedInvalid m)) := by
  constructor
  · intro hp hv
    rw [handleSubmit_invalid now s msg hp hv]
    exact ⟨rfl, rfl, rfl, rfl, rfl⟩
  · intro hp hv hr
    rw [handleSubmit_repeated now s guess hp hv hr]
    exact ⟨rfl, rfl, rfl, rfl, rfl, fun m h => SubmitOutcome.noConfusion h⟩

/-- Witness for C4: a non-integral input and a repeated guess against
the sample state. -/
theorem C4_rejects_leave_round_unchanged_witness :
    ((handleSubmit 0 { sampleState with input := .nonIntegral }).2 =
        .rejectedInvalid .submitGuessTitle ∧
      (handleSubmit 0 { sampleState with input := .nonIntegral }).1.attempts = 0 ∧
      (handleSubmit 0 { sampleState with input := .nonIntegral }).1.history = [] ∧
      (handleSubmit 0 { sampleState with input := .nonIntegral }).1.status = .playing ∧
      (handleSubmit 0 { sampleState with input := .nonIntegral }).1.secret = 7) ∧
    ((handleSubmit 0 { sampleState with history := [⟨1, 7, .tooLow⟩] }).2 =
        .rejectedRepeat 7 ∧
      (handleSubmit 0 { sampleState with history := [⟨1, 7, .tooLow⟩] }).1.attempts = 0 ∧
      (handleSubmit 0 { sampleState with history := [⟨1, 7, .tooLow⟩] }).1.history =
        [⟨1, 7, .tooLow⟩] ∧
      (handleSubmit 0 { sampleState with history := [⟨1, 7, .tooLow⟩] }).1.status = .playing ∧
      (handleSubmit 0 { sampleState with history := [⟨1, 7, .tooLow⟩] }).1.secret = 7 ∧
      SubmitOutcome.rejectedRepeat 7 ≠ SubmitOutcome.rejectedInvalid .guessLabel) := by
  have ha := C4_rejects_leave_round_unchanged 0 { sampleState with input := .nonIntegral }
    7 .submitGuessTitle
  have hb := C4_rejects_leave_round_unchanged 0
    { sampleState with history := [⟨1, 7, .tooLow⟩] } 7 .guessLabel
  have ha2 := ha.1 rfl (by decide)
  have hb2 := hb.2 rfl (by decide) (by decide)
  exact ⟨⟨ha2.1, ha2.2.1, ha2.2.2.1, ha2.2.2.2.1, ha2.2.2.2.2⟩,
    ⟨hb2.1, hb2.2.1, hb2.2.2.1, hb2.2.2.2.1, hb2.2.2.2.2.1, hb2.2.2.2.2.2 .guessLabel⟩⟩

/-- C5: a leaderboard entry is appended exactly on a transition to `won`
(one entry per win; never on a wrong guess, invalid input, repeat,
timeout tick, or in a terminal state), and an append puts the new entry
first and keeps at most 50 entries, dropping the oldest past the cap. -/
theorem C5_leaderboard_append_on_win (now : ℤ) (s : AppState) (guess : ℤ) (msg : Msg)
    (e : LBEntry) (l : List LBEntry) :
    (addResult e l = e :: l.take 49) ∧
    ((addResult e l).length ≤ 50) ∧
    (l.length < 50 → (addResult e l).length = l.length + 1) ∧
    (s.status = .playing → validateInput s.rmin s.rmax s.input = .ok guess →
      isRepeatGuess s.history guess = false → guess = s.secret →
      (handleSubmit now s).1.leaderboard =
        addResult (winEntry now s (s.attempts + 1)
            (winFinalScore (s.attempts + 1) s.rmax s.hints.count s.timerChallenge
              s.timeLeft s.totalTime))
          s.leaderboard) ∧
    (s.status = .playing → validateInput s.rmin s.rmax s.input = .ok guess →
      isRepeatGuess s.history guess = false → guess ≠ s.secret →
      (handleSubmit now s).1.leaderboard = s.leaderboard) ∧
    (s.status = .playing → validateInput s.rmin s.rmax s.input = .err msg →
      (handleSubmit now s).1.leaderboard = s.leaderboard) ∧
    (s.status = .playing → validateInput s.rmin s.rmax s.input = .ok guess →
      isRepeatGuess s.history guess = true →
      (handleSubmit now s).1.leaderboard = s.leaderboard) ∧
    ((timerTick s).leaderboard = s.leaderboard) ∧
    ((s.status = .won ∨ s.status = .timeout ∨ s.status = .outOfAttempts) →
      (handleSubmit now s).1.leaderboard = s.leaderboard) := by
  refine ⟨rfl, ?_, fun hl => ?_, fun hp hv hr hc => ?_, fun hp hv hr hc => ?_,
    fun hp hv => ?_, fun hp hv hr => ?_, ?_, fun h => ?_⟩
  · simp only [addResult, List.length_take, List.length_cons]
    omega
  · simp only [addResult, List.length_take, List.length_cons]
    omega
  · rw [handleSubmit_win now s guess hp hv hr hc]
    rfl
  · by_cases hm : MAX_ATTEMPTS s.difficulty - (s.attempts + 1) ≤ 0
    · rw [handleSubmit_out_of_attempts now s guess hp hv hr hc hm]
      rfl
    · rw [handleSubmit_wrong_continue now s guess hp hv hr hc hm]
      rfl
  · rw [handleSubmit_invalid now s msg hp hv]
  · rw [handleSubmit_repeated now s guess hp hv hr]
  · unfold timerTick
    split_ifs <;> rfl
  · rw [handleSubmit_terminal now s h]

/-- Witness for C5 at the sample states. -/
theorem C5_leaderboard_append_on_win_witness :
    (addResult ⟨0, .easy, 1, 800, false, Option.none, Option.none⟩ [] =
      [⟨0, .easy, 1, 800, false, Option.none, Option.none⟩]) ∧
    ((handleSubmit 0 sampleState).1.leaderboard =
      addResult (winEntry 0 sampleState 1 (winFinalScore 1 20 0 false 30 30)) []) ∧
    ((handleSubmit 0 { sampleState with secret := 8 }).1.leaderboard = []) ∧
    ((handleSubmit 0 { sampleState with input := .blank }).1.leaderboard = []) ∧
    ((handleSubmit 0 { sampleState with history := [⟨1, 7, .tooLow⟩] }).1.leaderboard = []) ∧
    ((timerTick { sampleState with timerChallenge := true, timeLeft := 1 }).leaderboard = []) ∧
    ((handleSubmit 0 { sampleState with status := .timeout }).1.leaderboard = []) := by
  have h1 := C5_leaderboard_append_on_win 0 sampleState 7 .guessLabel
    ⟨0, .easy, 1, 800, false, Option.none, Option.none⟩ []
  have h2 := C5_leaderboard_append_on_win 0 { sampleState with secret := 8 } 7 .guessLabel
    ⟨0, .easy, 1, 800, false, Option.none, Option.none⟩ []
  have h3 := C5_leaderboard_append_on_win 0 { sampleState with input := .blank } 7 .guessLabel
    ⟨0, .easy, 1, 800, false, Option.none, Option.none⟩ []
  have h4 := C5_leaderboard_append_on_win 0 { sampleState with history := [⟨1, 7, .tooLow⟩] } 7
    .guessLabel ⟨0, .easy, 1, 800, false, Option.none, Option.none⟩ []
  have h5 := C5_leaderboard_append_on_win 0
    { sampleState with timerChallenge := true, timeLeft := 1 } 7 .guessLabel
    ⟨0, .easy, 1, 800, false, Option.none, Option.none⟩ []
  have h6 := C5_leaderboard_append_on_win 0 { sampleState with status := .timeout } 7 .guessLabel
    ⟨0, .easy, 1, 800, false, Option.none, Option.none⟩ []
  exact ⟨h1.1, h1.2.2.2.1 rfl (by decide) (by decide) (by decide),
    h2.2.2.2.2.1 rfl (by decide) (by decide) (by decide),
    h3.2.2.2.2.2.1 rfl (by decide),
    h4.2.2.2.2.2.2.1 rfl (by decide) (by decide),
    h5.2.2.2.2.2.2.2.1,
    h6.2.2.2.2.2.2.2.2 (Or.inr (Or.inl rfl))⟩

theorem mem_unlockNextLevelIfEligible {lv cur : Level} {u : List Level}
    (h : lv ∈ unlockNextLevelIfEligible cur u) :
    lv ∈ u ∨ getNextLevel cur = some lv := by
  unfold unlockNextLevelIfEligible at h
  cases hn : getNextLevel cur with
  | none =>
    simp only [hn] at h
    exact Or.inl h
  | some nxt =>
    simp only [hn] at h
    by_cases hmem : nxt ∈ u
    · rw [if_pos hmem] at h
      exact Or.inl h
    · rw [if_neg hmem] at h
      rcases List.mem_append.mp h with h1 | h2
      · exact Or.inl h1
      · have hlvn : lv = nxt := List.mem_singleton.mp h2
        subst hlvn
        exact Or.inr rfl

/-- C9 counterexample: a stored progress value whose `unlocked` array
names only `Intermediate` is read back as exactly `{Intermediate}`, so
the set of unlocked levels does not contain the first level. -/
theorem C9_beginner_always_unlocked_counterexample :
    Level.beginner ∉ readLevelProgress (.list [.valid .intermediate]) ∧
    readLevelProgress (.list [.valid .intermediate]) = [.intermediate] := by
  decide

/-- C9 (amended): the set of unlocked levels read from storage is never
empty and is exactly `{Beginner}` whenever the stored value is missing,
corrupt, or contains no valid level identifier (Beginner is the
default); a stored list of valid levels is returned as-is and may omit
Beginner. On a win, the only level that can join the unlocked set is the
one immediately after the active level (never skipping); non-win events
leave the unlocked set unchanged. -/
theorem C9_level_progress_invariants (stored : StoredProgress) (items : List StoredItem)
    (now : ℤ) (s : AppState) (guess : ℤ) (msg : Msg) :
    (readLevelProgress .missing = [Level.beginner]) ∧
    (readLevelProgress .corrupt = [Level.beginner]) ∧
    (validLevels items = [] → readLevelProgress (.list items) = [Level.beginner]) ∧
    (readLevelProgress stored ≠ []) ∧
    (s.status = .playing → validateInput s.rmin s.rmax s.input = .ok guess →
      isRepeatGuess s.history guess = false → guess = s.secret →
      ∀ lv ∈ (handleSubmit now s).1.unlockedLevels,
        lv ∈ s.unlockedLevels ∨ getNextLevel s.level = some lv) ∧
    (s.status = .playing → validateInput s.rmin s.rmax s.input = .ok guess →
      isRepeatGuess s.history guess = false → guess ≠ s.secret →
      (handleSubmit now s).1.unlockedLevels = s.unlockedLevels) ∧
    (s.status = .playing → validateInput s.rmin s.rmax s.input = .err msg →
      (handleSubmit now s).1.unlockedLevels = s.unlockedLevels) ∧
    ((timerTick s).unlockedLevels = s.unlockedLevels) := by
  refine ⟨rfl, rfl, fun hval => ?_, ?_, fun hp hv hr hc lv hlv => ?_,
    fun hp hv hr hc => ?_, fun hp hv => ?_, ?_⟩
  · simp [readLevelProgress, hval]
  · cases stored with
    | missing => simp [readLevelProgress]
    | corrupt => simp [readLevelProgress]
    | list items2 =>
      by_cases hval : validLevels items2 = []
      · simp [readLevelProgress, hval]
      · simp only [readLevelProgress, if_neg hval]
        exact hval
  · rw [handleSubmit_win now s guess hp hv hr hc] at hlv
    exact mem_unlockNextLevelIfEligible hlv
  · by_cases hm : MAX_ATTEMPTS s.difficulty - (s.attempts + 1) ≤ 0
    · rw [handleSubmit_out_of_attempts now s guess hp hv hr hc hm]
      rfl
    · rw [handleSubmit_wrong_continue now s guess hp hv hr hc hm]
      rfl
  · rw [handleSubmit_invalid now s msg hp hv]
  · unfold timerTick
    split_ifs <;> rfl

/-- Witness for C9 at concrete stored values and states. -/
theorem C9_level_progress_invariants_witness :
    (readLevelProgress .missing = [Level.beginner]) ∧
    (readLevelProgress (.list [.invalid]) = [Level.beginner]) ∧
    (readLevelProgress (.list [.valid .expert]) ≠ []) ∧
    (∀ lv ∈ (handleSubmit 0 sampleState).1.unlockedLevels,
        lv ∈ sampleState.unlockedLevels ∨ getNextLevel sampleState.level = some lv) ∧
    ((handleSubmit 0 { sampleState with secret := 8 }).1.unlockedLevels = [.beginner]) ∧
    ((timerTick { sampleState with timerChallenge := true, timeLeft := 1 }).unlockedLevels =
      [.beginner]) := by
  have h1 := C9_level_progress_invariants .missing [] 0 sampleState 7 .guessLabel
  have h2 := C9_level_progress_invariants (.list [.valid .expert]) [.invalid] 0 sampleState 7
    .guessLabel
  have h3 := C9_level_progress_invariants .missing [] 0 { sampleState with secret := 8 } 7
    .guessLabel
  have h4 := C9_level_progress_invariants .missing [] 0
    { sampleState with timerChallenge := true, timeLeft := 1 } 7 .guessLabel
  exact ⟨h1.1, h2.2.2.1 (by decide), h2.2.2.2.1,
    h1.2.2.2.2.1 rfl (by decide) (by decide) (by decide),
    h3.2.2.2.2.2.1 rfl (by decide) (by decide) (by decide),
    h4.2.2.2.2.2.2.2⟩

/-- Equality of all App-state fields other than the hint flags and the
displayed messages (`feedback`, `lastHint`). -/
def hintFrameEq (s r : AppState) : Prop :=
  r.level = s.level ∧ r.unlockedLevels = s.unlockedLevels ∧ r.difficulty = s.difficulty ∧
  r.rmin = s.rmin ∧ r.rmax = s.rmax ∧ r.secret = s.secret ∧ r.input = s.input ∧
  r.status = s.status ∧ r.attempts = s.attempts ∧ r.score = s.score ∧
  r.achievements = s.achievements ∧ r.roundNewlyUnlocked = s.roundNewlyUnlocked ∧
  r.history = s.history ∧ r.repeatWarning = s.repeatWarning ∧ r.historyLive = s.historyLive ∧
  r.timerChallenge = s.timerChallenge ∧ r.timeLeft = s.timeLeft ∧ r.totalTime = s.totalTime ∧
  r.winTimeBonusPct = s.winTimeBonusPct ∧ r.leaderboard = s.leaderboard ∧
  r.totalGames = s.totalGames

theorem announceHint_frame (text : Msg) (ty : HintType) (s : AppState) :
    hintFrameEq s (announceHint text ty s) ∧ (announceHint text ty s).hints = s.hints.set ty := by
  unfold announceHint hintFrameEq
  exact ⟨⟨rfl, rfl, rfl, rfl, rfl, rfl, rfl, rfl, rfl, rfl, rfl, rfl, rfl, rfl, rfl, rfl, rfl,
    rfl, rfl, rfl, rfl⟩, rfl⟩

theorem handleParityHint_shape (s : AppState) (hp : s.status = .playing) :
    ∃ msg, handleParityHint s = announceHint msg .parity s := by
  unfold handleParityHint
  rw [if_neg (fun h => h hp)]
  exact ⟨_, rfl⟩

theorem handleRangeHint_shape (s : AppState) (hp : s.status = .playing) :
    ∃ msg, handleRangeHint s = announceHint msg .range s := by
  unfold handleRangeHint
  rw [if_neg (fun h => h hp)]
  exact ⟨_, rfl⟩

theorem handleDigitHint_shape (s : AppState) (hp : s.status = .playing) :
    ∃ msg, handleDigitHint s = announceHint msg .digit s := by
  unfold handleDigitHint
  rw [if_neg (fun h => h hp)]
  exact ⟨_, rfl⟩

theorem handleProximityHint_shape (s : AppState) (hp : s.status = .playing) :
    ∃ msg, handleProximityHint s = announceHint msg .proximity s := by
  unfold handleProximityHint
  rw [if_neg (fun h => h hp)]
  by_cases ha : s.attempts ≤ 0
  · rw [if_pos ha]
    exact ⟨_, rfl⟩
  · rw [if_neg ha]
    exact ⟨_, rfl⟩

theorem HintFlags.set_already {h : HintFlags} {ty : HintType} (hty : h.get ty = true) :
    h.set ty = h := by
  cases h
  cases ty <;> simp_all [HintFlags.get, HintFlags.set]

/-- C10: from `playing`, each of the four hint requests leaves every
piece of round state other than the hint-usage flags and the displayed
messages unchanged (in particular `attemptsUsed`, `history`, `secret`
and `status`); the only flag change is marking that hint type used, and
marking an already-used type changes nothing. -/
theorem C10_hint_requests_only_mark_hint_used (s : AppState) (hp : s.status = .playing)
    (ty : HintType) :
    (hintFrameEq s (handleParityHint s) ∧
      (handleParityHint s).hints = s.hints.set .parity) ∧
    (hintFrameEq s (handleRangeHint s) ∧
      (handleRangeHint s).hints = s.hints.set .range) ∧
    (hintFrameEq s (handleDigitHint s) ∧
      (handleDigitHint s).hints = s.hints.set .digit) ∧
    (hintFrameEq s (handleProximityHint s) ∧
      (handleProximityHint s).hints = s.hints.set .proximity) ∧
    (s.hints.get ty = true → s.hints.set ty = s.hints) := by
  obtain ⟨m1, e1⟩ := handleParityHint_shape s hp
  obtain ⟨m2, e2⟩ := handleRangeHint_shape s hp
  obtain ⟨m3, e3⟩ := handleDigitHint_shape s hp
  obtain ⟨m4, e4⟩ := handleProximityHint_shape s hp
  rw [e1, e2, e3, e4]
  exact ⟨announceHint_frame m1 .parity s, announceHint_frame m2 .range s,
    announceHint_frame m3 .digit s, announceHint_frame m4 .proximity s,
    fun hty => HintFlags.set_already hty⟩

/-- Witness for C10 at the sample state, requesting the parity hint
again after it has been used. -/
theorem C10_hint_requests_only_mark_hint_used_witness :
    (hintFrameEq sampleState (handleParityHint sampleState) ∧
      (handleParityHint sampleState).hints = sampleState.hints.set .parity) ∧
    (hintFrameEq sampleState (handleProximityHint sampleState) ∧
      (handleProximityHint sampleState).hints = sampleState.hints.set .proximity) ∧
    HintFlags.set ⟨true, false, false, false⟩ .parity = ⟨true, false, false, false⟩ := by
  have h1 := C10_hint_requests_only_mark_hint_used sampleState rfl .parity
  have h2 := C10_hint_requests_only_mark_hint_used
    { sampleState with hints := ⟨true, false, false, false⟩ } rfl .parity
  exact ⟨h1.1, h1.2.2.2.1, h2.2.2.2.2 rfl⟩

end NGG
